import Mathlib

/-! # govaluate-experiment: the built-ins `regexMatch` and `any`

A shallow embedding of `main.go`: the argument validator
`validateVariadicArgs`, the matcher wrapper `RegexMatch` / `RegexMatchFunc`
and the quantifier `Any`.

Go's `interface{}` is the inductive `Value`.  A Go call either returns or
panics (`Outcome`); a function of type `(interface{}, error)` returns a pair
`Value × Option String`, the second component being the error text (`none`
for `nil`).  The calls a built-in makes to its collaborators are recorded in
a trace (`Run`), so that "the matcher is not invoked" and "the sub-expression
is evaluated k times" are statements about the model.

Package `regexp` and the expression library are external to the repository:
they are parameters (`Regexp`, `Engine`) and every theorem holds for all of
them.
-/

namespace GovaluateExperiment

/-! ## Dynamic values -/

/-- A value of Go's `interface{}` as the built-ins see it. -/
inductive Value where
  /-- The nil interface. -/
  | nil : Value
  /-- A Go `bool`. -/
  | bool (b : Bool) : Value
  /-- A Go `int64`. -/
  | int64 (n : Int) : Value
  /-- A Go `string`. -/
  | str (s : String) : Value
  /-- A Go `[]interface{}`. -/
  | slice (xs : List Value) : Value
  /-- A Go `map[string]interface{}`, as its list of entries. -/
  | map (kvs : List (String × Value)) : Value
  /-- A value of any other dynamic type (`float64`, a struct, a typed slice
  such as `[]string`, ...), given by its type name and its `%v` rendering. -/
  | other (typeName shown : String) : Value

/-- A parameter mapping: the entries of a `map[string]interface{}`. -/
abbrev Params := List (String × Value)

/-- Insert a rendered map entry at its place in ascending key order. -/
def insertEntry (e : String × String) : List (String × String) → List (String × String)
  | [] => [e]
  | f :: rest => if e.1 < f.1 then e :: f :: rest else f :: insertEntry e rest

/-- Rendered map entries in ascending key order, the order `fmt` prints them in. -/
def sortEntries : List (String × String) → List (String × String)
  | [] => []
  | e :: rest => insertEntry e (sortEntries rest)

mutual
/-- The `%v` rendering of `fmt`. -/
def fmtV : Value → String
  | .nil => "<nil>"
  | .bool b => if b then "true" else "false"
  | .int64 n => toString n
  | .str s => s
  | .slice xs => "[" ++ " ".intercalate (fmtVs xs) ++ "]"
  | .map kvs =>
    "map[" ++ " ".intercalate ((sortEntries (fmtEntries kvs)).map fun e => e.1 ++ ":" ++ e.2) ++ "]"
  | .other _ shown => shown
/-- The renderings of the elements of a slice. -/
def fmtVs : List Value → List String
  | [] => []
  | x :: xs => fmtV x :: fmtVs xs
/-- The entries of a map with their values rendered. -/
def fmtEntries : List (String × Value) → List (String × String)
  | [] => []
  | (k, v) :: rest => (k, fmtV v) :: fmtEntries rest
end

/-- What `reflect.TypeOf` prints for a value. -/
def typeName : Value → String
  | .nil => "<nil>"
  | .bool _ => "bool"
  | .int64 _ => "int64"
  | .str _ => "string"
  | .slice _ => "[]interface {}"
  | .map _ => "map[string]interface {}"
  | .other t _ => t

/-! ## Calls, outcomes and traces -/

/-- How a Go call ends: it returns a value, or it panics with an error. -/
inductive Outcome (α : Type) where
  | done (a : α) : Outcome α
  | panic (err : String) : Outcome α

/-- What a Go function of result type `(interface{}, error)` returns. -/
abbrev Pair := Value × Option String

/-- A call a built-in makes to one of its collaborators. -/
inductive Event where
  /-- `RegexMatch(key1, key2)`. -/
  | regexMatch (key1 key2 : String) : Event
  /-- `govaluate.NewEvaluableExpressionWithFunctions(source, functions)`. -/
  | compile (source : String) : Event
  /-- `expression.Evaluate(params)`. -/
  | evaluate (params : Params) : Event
  /-- `fmt.Printf`, with the text printed. -/
  | print (text : String) : Event

/-- A run of a built-in: the collaborator calls it made, in order, and how it ended. -/
structure Run (α : Type) where
  trace : List Event
  result : Outcome α

/-- The type `govaluate.ExpressionFunction`. -/
abbrev ExpressionFunction := List Value → Run Pair

/-- Package `regexp`: `matchString pattern s` is `regexp.MatchString(pattern, s)`,
an error when the pattern does not compile. -/
structure Regexp where
  matchString : String → String → Except String Bool

/-- The expression library: `compile` is `NewEvaluableExpressionWithFunctions`,
`evaluate` is `Evaluate` on a compiled expression. -/
structure Engine where
  Expr : Type
  compile : String → List (String × ExpressionFunction) → Except String Expr
  evaluate : Expr → Params → Outcome Pair

/-! ## The source functions -/

/-- The loop of `validateVariadicArgs`: the first argument that is not a
string ends it with an error. -/
def checkStrings : List Value → Option String
  | [] => none
  | .str _ :: rest => checkStrings rest
  | _ :: _ => some "Argument must be a string"

/-- Validate the variadic parameter size and type as string. -/
def validateVariadicArgs (expectedLen : Int) (args : List Value) : Option String :=
  if (args.length : Int) ≠ expectedLen then
    some ("Expected " ++ toString expectedLen ++ " arguments, but got " ++ toString args.length)
  else
    checkStrings args

/-- RegexMatch determines whether key1 matches the pattern of key2. -/
def RegexMatch (rx : Regexp) (key1 key2 : String) : Outcome Bool :=
  match rx.matchString key2 key1 with
  | .error err => .panic err
  | .ok res => .done res

/-- The type assertion `v.(string)`. -/
def assertString (v : Option Value) : Outcome String :=
  match v with
  | some (.str s) => .done s
  | some v => .panic ("interface conversion: interface {} is " ++ typeName v ++ ", not string")
  | none => .panic "runtime error: index out of range"

/-- RegexMatchFunc is the wrapper for RegexMatch. -/
def RegexMatchFunc (rx : Regexp) (args : List Value) : Run Pair :=
  match validateVariadicArgs 2 args with
  | some err => ⟨[], .done (.bool false, some ("regexMatch: " ++ err))⟩
  | none =>
    match assertString (args.get? 0) with
    | .panic e => ⟨[], .panic e⟩
    | .done name1 =>
      match assertString (args.get? 1) with
      | .panic e => ⟨[], .panic e⟩
      | .done name2 =>
        match RegexMatch rx name1 name2 with
        | .panic e => ⟨[.regexMatch name1 name2], .panic e⟩
        | .done b => ⟨[.regexMatch name1 name2], .done (.bool b, none)⟩

/-- The `for _, item := range arr` loop of `Any`, with `found` still false on
entry; the value it ends with is what `Any` returns. -/
def anyLoop (eng : Engine) (expression : eng.Expr) : List Value → Run Pair
  | [] => ⟨[], .done (.bool false, none)⟩
  | .map params :: rest =>
    let calls : List Event :=
      [.print ("sending params in any " ++ fmtV (.map params) ++ "\n"), .evaluate params]
    match eng.evaluate expression params with
    | .panic e => ⟨calls, .panic e⟩
    | .done (_, some err) => ⟨calls, .panic err⟩
    | .done (.bool true, none) => ⟨calls, .done (.bool true, none)⟩
    | .done (_, none) =>
      ⟨calls ++ (anyLoop eng expression rest).trace, (anyLoop eng expression rest).result⟩
  | item :: _ => ⟨[], .done (.bool false, some ("item is not a map " ++ fmtV item))⟩

/-- The function map `Any` compiles its sub-expression with. -/
def anyFunctions (rx : Regexp) : List (String × ExpressionFunction) :=
  [("regexMatch", RegexMatchFunc rx)]

/-- The quantifier built-in `any`. -/
def Any (rx : Regexp) (eng : Engine) (args : List Value) : Run Pair :=
  match args with
  | [] | [_] =>
    ⟨[], .done (.bool false, some ("Expected 2+ arguments, but got " ++ toString args.length))⟩
  | .str function :: .slice arr :: _ =>
    match eng.compile function (anyFunctions rx) with
    | .error err => ⟨[.compile function], .panic err⟩
    | .ok expression =>
      ⟨.compile function :: (anyLoop eng expression arr).trace, (anyLoop eng expression arr).result⟩
  | .str _ :: _ :: _ =>
    ⟨[], .done (.bool false,
      some ("arg 1 is not a slice! ***" ++ fmtV (.slice args) ++ "*** " ++
        typeName (args.headD .nil)))⟩
  | _ :: _ :: _ => ⟨[], .done (.bool false, some "arg 0 is not a string!")⟩

/-! ## A small instance of the collaborators

The theorems below hold for every `Regexp` and every `Engine`.  To run the
built-ins on concrete inputs, this section gives a small instance of each,
agreeing with the real packages on the inputs it accepts. -/

/-- The pattern of a valid tag in `main`. -/
def jiraPattern : String := "^JIRA:[a-zA-Z]\x7b3\x7d[a-zA-Z]*$"

/-- The sub-expression `main` hands to `any` for the tags. -/
def jiraExpression : String := "regexMatch(Value, \"" ++ jiraPattern ++ "\")"

/-- An ASCII letter, the class `[a-zA-Z]`. -/
def isLetter (c : Char) : Bool :=
  (97 ≤ c.toNat && c.toNat ≤ 122) || (65 ≤ c.toNat && c.toNat ≤ 90)

/-- Whether `p` occurs in `s` as a contiguous run. -/
def occursIn (p : List Char) : List Char → Bool
  | [] => p.isEmpty
  | c :: cs => p.isPrefixOf (c :: cs) || occursIn p cs

/-- An instance of `regexp.MatchString` for three kinds of pattern: `(`
does not compile, `jiraPattern` matches `JIRA:` followed by three or more
letters and nothing else, and a pattern of letters, digits and colons
matches the strings that contain it. -/
def sampleMatchString (pattern s : String) : Except String Bool :=
  if pattern = "(" then .error "error parsing regexp: missing closing ): \x60(\x60"
  else if pattern = jiraPattern then
    .ok ("JIRA:".toList.isPrefixOf s.toList && 3 ≤ (s.toList.drop 5).length
      && (s.toList.drop 5).all isLetter)
  else if pattern.toList.all (fun c => isLetter c || c.isDigit || c = ':') then
    .ok (occursIn pattern.toList s.toList)
  else .error "pattern outside the sample"

/-- The sample instance of package `regexp`. -/
def sampleRegexp : Regexp := ⟨sampleMatchString⟩

/-- An operand of a sample expression: a literal or a parameter name. -/
inductive SampleArg where
  | lit (v : Value) : SampleArg
  | var (name : String) : SampleArg

/-- A sample compiled expression: an operand, or a call of a registered function. -/
inductive SampleExpr where
  | arg (a : SampleArg) : SampleExpr
  | call (fn : ExpressionFunction) (args : List SampleArg) : SampleExpr

/-- Look a parameter up by name. -/
def lookupParam (name : String) : Params → Option Value
  | [] => none
  | (k, v) :: rest => if k = name then some v else lookupParam name rest

/-- Compile the expressions of the sample: the literals `true`, `false` and
`1`, the parameter `ok`, and `jiraExpression`; `(` is unbalanced. -/
def sampleCompile (source : String) (functions : List (String × ExpressionFunction)) :
    Except String SampleExpr :=
  if source = "true" then .ok (.arg (.lit (.bool true)))
  else if source = "false" then .ok (.arg (.lit (.bool false)))
  else if source = "1" then .ok (.arg (.lit (.other "float64" "1")))
  else if source = "ok" then .ok (.arg (.var "ok"))
  else if source = jiraExpression then
    match functions.lookup "regexMatch" with
    | some fn => .ok (.call fn [.var "Value", .lit (.str jiraPattern)])
    | none => .error "Undefined function regexMatch"
  else if source = "(" then .error "Unbalanced parenthesis"
  else .error "expression outside the sample"

/-- Evaluate the operands of a call, left to right. -/
def sampleArgs (params : Params) : List SampleArg → Except String (List Value)
  | [] => .ok []
  | .lit v :: rest => (sampleArgs params rest).map (v :: ·)
  | .var name :: rest =>
    match lookupParam name params with
    | some v => (sampleArgs params rest).map (v :: ·)
    | none => .error ("No parameter \x27" ++ name ++ "\x27 found.")

/-- Evaluate a sample expression. -/
def sampleEvaluate (e : SampleExpr) (params : Params) : Outcome Pair :=
  match e with
  | .arg (.lit v) => .done (v, none)
  | .arg (.var name) =>
    match lookupParam name params with
    | some v => .done (v, none)
    | none => .done (.nil, some ("No parameter \x27" ++ name ++ "\x27 found."))
  | .call fn args =>
    match sampleArgs params args with
    | .error err => .done (.nil, some err)
    | .ok vs =>
      match (fn vs).result with
      | .panic e => .panic e
      | .done (v, none) => .done (v, none)
      | .done (_, some err) => .done (.nil, some err)

/-- The sample instance of the expression library. -/
def sampleEngine : Engine := ⟨SampleExpr, sampleCompile, sampleEvaluate⟩

/-- The compiled form of `jiraExpression` in the sample engine. -/
def jiraCompiled : sampleEngine.Expr :=
  SampleExpr.call (RegexMatchFunc sampleRegexp) [.var "Value", .lit (.str jiraPattern)]

/-- The compiled form of the expression `ok` in the sample engine. -/
def okCompiled : sampleEngine.Expr := SampleExpr.arg (.var "ok")

/-- The compiled form of the expression `1` in the sample engine. -/
def oneCompiled : sampleEngine.Expr := SampleExpr.arg (.lit (.other "float64" "1"))

/-- The tags of the second flag of `main`, as parameter mappings. -/
def sampleTags : List Params := [[("Value", .str "FOO:BAR")], [("Value", .str "JIRA:EPLT")]]

/-! ## Vocabulary of the statements -/

/-- Whether a value is a Go `string`. -/
def isString : Value → Bool
  | .str _ => true
  | _ => false

/-- Whether a value is a `map[string]interface{}`. -/
def isMap : Value → Bool
  | .map _ => true
  | _ => false

/-- Whether a value is a `[]interface{}`. -/
def isSlice : Value → Bool
  | .slice _ => true
  | _ => false

/-- Whether the expression evaluates to the boolean `true` on the parameters. -/
def yieldsTrue (eng : Engine) (expression : eng.Expr) (params : Params) : Bool :=
  match eng.evaluate expression params with
  | .done (.bool true, none) => true
  | _ => false

/-- The loop passes over the parameters: evaluating the expression on them
succeeds with a result other than the boolean `true`. -/
def PassedOver (eng : Engine) (expression : eng.Expr) (params : Params) : Prop :=
  ∃ v, eng.evaluate expression params = .done (v, none) ∧ v ≠ .bool true

/-- The calls the loop of `Any` makes for one element that is a map. -/
def elementCalls (params : Params) : List Event :=
  [.print ("sending params in any " ++ fmtV (.map params) ++ "\n"), .evaluate params]

/-- Evaluating the expression on the parameters succeeds: no error, no panic. -/
def Succeeds (eng : Engine) (expression : eng.Expr) (params : Params) : Prop :=
  ∃ v, eng.evaluate expression params = .done (v, none)

/-- The number of `Evaluate` calls in a trace. -/
def evaluations : List Event → Nat
  | [] => 0
  | .evaluate _ :: rest => evaluations rest + 1
  | _ :: rest => evaluations rest

/-! ## Lemmas on the validator -/

theorem checkStrings_of_non_string (args : List Value)
    (h : ∃ a ∈ args, isString a = false) :
    checkStrings args = some "Argument must be a string" := by
  induction args with
  | nil => simp at h
  | cons a rest ih =>
    cases a with
    | str s =>
      simp only [checkStrings]
      apply ih
      obtain ⟨b, hb, hs⟩ := h
      rcases List.mem_cons.mp hb with rfl | hb
      · simp [isString] at hs
      · exact ⟨b, hb, hs⟩
    | _ => simp [checkStrings]

theorem validateVariadicArgs_length (args : List Value) (h : args.length ≠ 2) :
    validateVariadicArgs 2 args =
      some ("Expected 2 arguments, but got " ++ toString args.length) := by
  have h2 : ((args.length : Int) ≠ 2) := by exact_mod_cast h
  simp only [validateVariadicArgs, if_pos h2]
  rfl

theorem validateVariadicArgs_non_string (args : List Value) (hl : args.length = 2)
    (h : ∃ a ∈ args, isString a = false) :
    validateVariadicArgs 2 args = some "Argument must be a string" := by
  have h2 : ¬ ((args.length : Int) ≠ 2) := by simp [hl]
  simp only [validateVariadicArgs, if_neg h2]
  exact checkStrings_of_non_string args h

theorem RegexMatchFunc_of_invalid (rx : Regexp) (args : List Value) (err : String)
    (h : validateVariadicArgs 2 args = some err) :
    RegexMatchFunc rx args = ⟨[], .done (.bool false, some ("regexMatch: " ++ err))⟩ := by
  simp only [RegexMatchFunc, h]

theorem RegexMatchFunc_two_strings (rx : Regexp) (name1 name2 : String) :
    RegexMatchFunc rx [.str name1, .str name2] =
      match rx.matchString name2 name1 with
      | .error e => ⟨[.regexMatch name1 name2], .panic e⟩
      | .ok b => ⟨[.regexMatch name1 name2], .done (.bool b, none)⟩ := by
  have hv : validateVariadicArgs 2 [Value.str name1, Value.str name2] = none := by
    simp [validateVariadicArgs, checkStrings]
  simp only [RegexMatchFunc, hv, List.get?, assertString, RegexMatch]
  cases rx.matchString name2 name1 <;> rfl

/-! ## Lemmas on the loop of `Any` -/

theorem anyLoop_cons_true (eng : Engine) (expression : eng.Expr) (params : Params)
    (rest : List Value) (h : eng.evaluate expression params = .done (.bool true, none)) :
    anyLoop eng expression (.map params :: rest) =
      ⟨elementCalls params, .done (.bool true, none)⟩ := by
  simp only [anyLoop, h, elementCalls]

theorem anyLoop_cons_pass (eng : Engine) (expression : eng.Expr) (params : Params)
    (rest : List Value) (h : PassedOver eng expression params) :
    anyLoop eng expression (.map params :: rest) =
      ⟨elementCalls params ++ (anyLoop eng expression rest).trace,
        (anyLoop eng expression rest).result⟩ := by
  obtain ⟨v, hv, hne⟩ := h
  cases v with
  | bool b =>
    cases b with
    | true => exact absurd rfl hne
    | false => simp only [anyLoop, hv, elementCalls]
  | _ => simp only [anyLoop, hv, elementCalls]

theorem anyLoop_cons_error (eng : Engine) (expression : eng.Expr) (params : Params)
    (rest : List Value) (v : Value) (err : String)
    (h : eng.evaluate expression params = .done (v, some err)) :
    anyLoop eng expression (.map params :: rest) = ⟨elementCalls params, .panic err⟩ := by
  simp only [anyLoop, h, elementCalls]

theorem anyLoop_cons_panic (eng : Engine) (expression : eng.Expr) (params : Params)
    (rest : List Value) (e : String) (h : eng.evaluate expression params = .panic e) :
    anyLoop eng expression (.map params :: rest) = ⟨elementCalls params, .panic e⟩ := by
  simp only [anyLoop, h, elementCalls]

theorem anyLoop_cons_not_map (eng : Engine) (expression : eng.Expr) (item : Value)
    (rest : List Value) (h : isMap item = false) :
    anyLoop eng expression (item :: rest) =
      ⟨[], .done (.bool false, some ("item is not a map " ++ fmtV item))⟩ := by
  cases item <;> simp [isMap] at h <;> simp only [anyLoop]

theorem evaluations_elementCalls_append (params : Params) (t : List Event) :
    evaluations (elementCalls params ++ t) = evaluations t + 1 := by
  simp [elementCalls, evaluations]

theorem anyLoop_passed_over_append (eng : Engine) (expression : eng.Expr)
    (pre : List Params) (rest : List Value)
    (h : ∀ p ∈ pre, PassedOver eng expression p) :
    (anyLoop eng expression (pre.map Value.map ++ rest)).result =
        (anyLoop eng expression rest).result ∧
      evaluations (anyLoop eng expression (pre.map Value.map ++ rest)).trace =
        pre.length + evaluations (anyLoop eng expression rest).trace := by
  induction pre with
  | nil => simp
  | cons p pre ih =>
    have hp := h p (List.mem_cons_self p pre)
    have ih2 := ih fun q hq => h q (List.mem_cons_of_mem _ hq)
    simp only [List.map_cons, List.cons_append, List.length_cons]
    rw [anyLoop_cons_pass eng expression p _ hp]
    refine ⟨ih2.1, ?_⟩
    simp only [evaluations_elementCalls_append, ih2.2]
    omega

theorem Any_compiled (rx : Regexp) (eng : Engine) (e : String) (expression : eng.Expr)
    (arr extra : List Value) (hc : eng.compile e (anyFunctions rx) = .ok expression) :
    Any rx eng (.str e :: .slice arr :: extra) =
      ⟨.compile e :: (anyLoop eng expression arr).trace,
        (anyLoop eng expression arr).result⟩ := by
  simp only [Any, hc]

theorem Any_not_compiled (rx : Regexp) (eng : Engine) (e err : String)
    (arr extra : List Value) (hc : eng.compile e (anyFunctions rx) = .error err) :
    Any rx eng (.str e :: .slice arr :: extra) = ⟨[.compile e], .panic err⟩ := by
  simp only [Any, hc]

/-! ## `regexMatch`: argument validation and the match -/

/-- C1: when the argument list of `RegexMatchFunc` has a length other than 2,
or holds an element that is not a string, the call returns the value `false`
with a non-nil error, and its trace is empty: `RegexMatch` is not invoked. -/
theorem RegexMatchFunc_rejects_bad_args (rx : Regexp) (args : List Value)
    (h : args.length ≠ 2 ∨ ∃ a ∈ args, isString a = false) :
    ∃ msg, RegexMatchFunc rx args = ⟨[], .done (.bool false, some msg)⟩ := by
  by_cases hl : args.length = 2
  · have hn : ∃ a ∈ args, isString a = false := h.resolve_left (fun hne => hne hl)
    exact ⟨_, RegexMatchFunc_of_invalid rx args _ (validateVariadicArgs_non_string args hl hn)⟩
  · exact ⟨_, RegexMatchFunc_of_invalid rx args _ (validateVariadicArgs_length args hl)⟩

/-- Witness of C1: one argument, three arguments, and two arguments of which
one is a number, are all rejected without a match. -/
theorem RegexMatchFunc_rejects_bad_args_witness :
    (([Value.str "a"].length ≠ 2 ∨ ∃ a ∈ [Value.str "a"], isString a = false) ∧
      ∃ msg, RegexMatchFunc sampleRegexp [.str "a"] = ⟨[], .done (.bool false, some msg)⟩) ∧
    (∃ msg, RegexMatchFunc sampleRegexp [.str "a", .str "b", .str "c"] =
      ⟨[], .done (.bool false, some msg)⟩) ∧
    (∃ msg, RegexMatchFunc sampleRegexp [.str "a", .int64 1] =
      ⟨[], .done (.bool false, some msg)⟩) :=
  ⟨⟨Or.inl (by decide),
      RegexMatchFunc_rejects_bad_args sampleRegexp [.str "a"] (Or.inl (by decide))⟩,
    RegexMatchFunc_rejects_bad_args sampleRegexp [.str "a", .str "b", .str "c"]
      (Or.inl (by decide)),
    RegexMatchFunc_rejects_bad_args sampleRegexp [.str "a", .int64 1]
      (Or.inr ⟨.int64 1, by simp, rfl⟩)⟩

/-- C2: for strings `subject` and `pattern` on which the matcher answers `b`
(the pattern is valid), `RegexMatchFunc(subject, pattern)` returns `b` with a
nil error after one call `RegexMatch(subject, pattern)`; `b` is
`regexp.MatchString(pattern, subject)`: the second argument is the pattern,
the first the input. -/
theorem RegexMatchFunc_subject_then_pattern (rx : Regexp) (subject pattern : String)
    (b : Bool) (h : rx.matchString pattern subject = .ok b) :
    RegexMatchFunc rx [.str subject, .str pattern] =
      ⟨[.regexMatch subject pattern], .done (.bool b, none)⟩ := by
  rw [RegexMatchFunc_two_strings, h]

/-- Witness of C2: the tag `JIRA:EPLT` matches the tag pattern; with the two
arguments exchanged the answer differs. -/
theorem RegexMatchFunc_subject_then_pattern_witness :
    sampleRegexp.matchString jiraPattern "JIRA:EPLT" = .ok true ∧
    RegexMatchFunc sampleRegexp [.str "JIRA:EPLT", .str jiraPattern] =
      ⟨[.regexMatch "JIRA:EPLT" jiraPattern], .done (.bool true, none)⟩ ∧
    (RegexMatchFunc sampleRegexp [.str "JIRA:EPLT", .str "JIRA"]).result =
      .done (.bool true, none) ∧
    (RegexMatchFunc sampleRegexp [.str "JIRA", .str "JIRA:EPLT"]).result =
      .done (.bool false, none) :=
  ⟨rfl, RegexMatchFunc_subject_then_pattern sampleRegexp "JIRA:EPLT" jiraPattern true rfl,
    rfl, rfl⟩

/-- C3, as stated, fails: the error text of a rejected call does not give the
position of the argument that is not a string.  `regexMatch(1, "a")` and
`regexMatch("a", 1)` each have exactly one argument that is not a string, at
positions 0 and 1, and are rejected with the same text; so no reading of the
text yields the position, even among calls with a single offending argument. -/
theorem RegexMatchFunc_error_omits_position :
    ¬ ∃ position : String → Nat, ∀ (args : List Value) (i : Nat) (msg : String),
      args.length = 2 →
      (∀ j, (args.get? j).map isString = some false ↔ j = i) →
      (RegexMatchFunc sampleRegexp args).result = .done (.bool false, some msg) →
      position msg = i := by
  rintro ⟨position, h⟩
  have h0 := h [.int64 1, .str "a"] 0 "regexMatch: Argument must be a string" rfl
    (by
      intro j
      rcases j with _ | _ | j <;> simp [isString])
    rfl
  have h1 := h [.str "a", .int64 1] 1 "regexMatch: Argument must be a string" rfl
    (by
      intro j
      rcases j with _ | _ | j <;> simp [isString])
    rfl
  omega

/-- C3, amended: the error of a rejected call names the function; for a
wrong count it is `regexMatch: Expected 2 arguments, but got n` with `n` the
number of arguments; for two arguments of which one is not a string it is the
fixed text `regexMatch: Argument must be a string`. -/
theorem RegexMatchFunc_error_text (rx : Regexp) (args : List Value)
    (h : args.length ≠ 2 ∨ ∃ a ∈ args, isString a = false) :
    RegexMatchFunc rx args =
      ⟨[], .done (.bool false, some ("regexMatch: " ++
        if args.length ≠ 2 then "Expected 2 arguments, but got " ++ toString args.length
        else "Argument must be a string"))⟩ := by
  by_cases hl : args.length = 2
  · have hn : ∃ a ∈ args, isString a = false := h.resolve_left (fun hne => hne hl)
    rw [RegexMatchFunc_of_invalid rx args _ (validateVariadicArgs_non_string args hl hn)]
    simp [hl]
  · rw [RegexMatchFunc_of_invalid rx args _ (validateVariadicArgs_length args hl)]
    simp [hl]

/-- Witness of the amended C3: the texts for three arguments and for a
number in the first place. -/
theorem RegexMatchFunc_error_text_witness :
    ([Value.str "a", .str "b", .str "c"].length ≠ 2 ∨
      ∃ a ∈ [Value.str "a", .str "b", .str "c"], isString a = false) ∧
    RegexMatchFunc sampleRegexp [.str "a", .str "b", .str "c"] =
      ⟨[], .done (.bool false, some "regexMatch: Expected 2 arguments, but got 3")⟩ ∧
    RegexMatchFunc sampleRegexp [.int64 1, .str "a"] =
      ⟨[], .done (.bool false, some "regexMatch: Argument must be a string")⟩ :=
  ⟨Or.inl (by decide),
    RegexMatchFunc_error_text sampleRegexp [.str "a", .str "b", .str "c"] (Or.inl (by decide)),
    RegexMatchFunc_error_text sampleRegexp [.int64 1, .str "a"]
      (Or.inr ⟨.int64 1, by simp, rfl⟩)⟩

/-! ## `any`: the quantifier -/

theorem yieldsTrue_iff (eng : Engine) (expression : eng.Expr) (params : Params) :
    yieldsTrue eng expression params = true ↔
      eng.evaluate expression params = .done (.bool true, none) := by
  constructor
  · intro h
    unfold yieldsTrue at h
    split at h
    · assumption
    · simp at h
  · intro h
    simp [yieldsTrue, h]

theorem passedOver_of_succeeds (eng : Engine) (expression : eng.Expr) (params : Params)
    (hs : Succeeds eng expression params) (hf : yieldsTrue eng expression params = false) :
    PassedOver eng expression params := by
  obtain ⟨v, hv⟩ := hs
  refine ⟨v, hv, ?_⟩
  rintro rfl
  rw [(yieldsTrue_iff eng expression params).mpr hv] at hf
  exact Bool.noConfusion hf

theorem anyLoop_all_succeed (eng : Engine) (expression : eng.Expr) (xs : List Params)
    (hs : ∀ p ∈ xs, Succeeds eng expression p) :
    (anyLoop eng expression (xs.map Value.map)).result =
        .done (.bool (xs.any (yieldsTrue eng expression)), none) ∧
      evaluations (anyLoop eng expression (xs.map Value.map)).trace =
        if xs.any (yieldsTrue eng expression) then
          xs.findIdx (yieldsTrue eng expression) + 1
        else xs.length := by
  induction xs with
  | nil => simp [anyLoop, evaluations]
  | cons p xs ih =>
    have ih2 := ih fun q hq => hs q (List.mem_cons_of_mem _ hq)
    cases hy : yieldsTrue eng expression p with
    | true =>
      rw [List.map_cons, anyLoop_cons_true eng expression p _
        ((yieldsTrue_iff eng expression p).mp hy)]
      simp [hy, List.findIdx_cons, elementCalls, evaluations]
    | false =>
      have hp := passedOver_of_succeeds eng expression p
        (hs p (List.mem_cons_self p xs)) hy
      rw [List.map_cons, anyLoop_cons_pass eng expression p _ hp]
      simp only [evaluations_elementCalls_append, ih2.1, ih2.2, List.any_cons, hy,
        Bool.false_or, List.findIdx_cons, cond_false, List.length_cons]
      refine ⟨trivial, ?_⟩
      split <;> rfl

/-- C4: for a sub-expression `e` that compiles and a sequence `xs` of
parameter mappings on each of which evaluating `e` succeeds, `Any(e, xs)`
returns `(b, nil)` where `b` is true exactly when `e` evaluates to the
boolean `true` on some element of `xs`. -/
theorem Any_is_existential (rx : Regexp) (eng : Engine) (e : String)
    (expression : eng.Expr) (xs : List Params)
    (hc : eng.compile e (anyFunctions rx) = .ok expression)
    (hs : ∀ p ∈ xs, Succeeds eng expression p) :
    ∃ b, (Any rx eng [.str e, .slice (xs.map Value.map)]).result = .done (.bool b, none) ∧
      (b = true ↔ ∃ p ∈ xs, eng.evaluate expression p = .done (.bool true, none)) := by
  refine ⟨xs.any (yieldsTrue eng expression), ?_, ?_⟩
  · rw [Any_compiled rx eng e expression _ _ hc]
    exact (anyLoop_all_succeed eng expression xs hs).1
  · simp only [List.any_eq_true, yieldsTrue_iff]

/-- Witness of C4: the tags `FOO:BAR` and `JIRA:EPLT` with the tag
expression of `main`; the second tag satisfies it and the answer is `true`. -/
theorem Any_is_existential_witness :
    sampleEngine.compile jiraExpression (anyFunctions sampleRegexp) = .ok jiraCompiled ∧
    (∀ p ∈ sampleTags, Succeeds sampleEngine jiraCompiled p) ∧
    (∃ b, (Any sampleRegexp sampleEngine
        [.str jiraExpression, .slice (sampleTags.map Value.map)]).result =
          .done (.bool b, none) ∧
      (b = true ↔
        ∃ p ∈ sampleTags, sampleEngine.evaluate jiraCompiled p = .done (.bool true, none))) ∧
    (Any sampleRegexp sampleEngine
        [.str jiraExpression, .slice (sampleTags.map Value.map)]).result =
      .done (.bool true, none) :=
  have hs : ∀ p ∈ sampleTags, Succeeds sampleEngine jiraCompiled p := by
    intro p hp
    simp only [sampleTags, List.mem_cons, List.mem_singleton, List.not_mem_nil, or_false] at hp
    rcases hp with rfl | rfl
    · exact ⟨.bool false, rfl⟩
    · exact ⟨.bool true, rfl⟩
  ⟨rfl, hs,
    Any_is_existential sampleRegexp sampleEngine jiraExpression jiraCompiled sampleTags rfl hs,
    rfl⟩

theorem passedOver_of_list (eng : Engine) (expression : eng.Expr) (pre : List Params)
    (h : ∀ p ∈ pre, Succeeds eng expression p ∧ yieldsTrue eng expression p = false) :
    ∀ p ∈ pre, PassedOver eng expression p :=
  fun p hp => passedOver_of_succeeds eng expression p (h p hp).1 (h p hp).2

/-- C5: `Any` short-circuits.  For a sub-expression that compiles and a
sequence of parameter mappings on which its evaluation succeeds, the number
of `Evaluate` calls is the 1-based index of the first element on which it
evaluates to `true`, or the length of the sequence when there is none; and
when `x` is the first such element, `Any` returns `(true, nil)` after
`pre.length + 1` evaluations whatever follows `x`. -/
theorem Any_short_circuits (rx : Regexp) (eng : Engine) (e : String)
    (expression : eng.Expr) (hc : eng.compile e (anyFunctions rx) = .ok expression) :
    (∀ xs : List Params, (∀ p ∈ xs, Succeeds eng expression p) →
      evaluations (Any rx eng [.str e, .slice (xs.map Value.map)]).trace =
        if xs.any (yieldsTrue eng expression) then
          xs.findIdx (yieldsTrue eng expression) + 1
        else xs.length) ∧
    (∀ (pre : List Params) (x : Params) (ys : List Value),
      (∀ p ∈ pre, Succeeds eng expression p ∧ yieldsTrue eng expression p = false) →
      yieldsTrue eng expression x = true →
      (Any rx eng [.str e, .slice (pre.map Value.map ++ .map x :: ys)]).result =
          .done (.bool true, none) ∧
        evaluations (Any rx eng [.str e, .slice (pre.map Value.map ++ .map x :: ys)]).trace =
          pre.length + 1) := by
  constructor
  · intro xs hs
    rw [Any_compiled rx eng e expression _ _ hc]
    simp only [evaluations]
    exact (anyLoop_all_succeed eng expression xs hs).2
  · intro pre x ys hpre hx
    rw [Any_compiled rx eng e expression _ _ hc]
    have h := anyLoop_passed_over_append eng expression pre (.map x :: ys)
      (passedOver_of_list eng expression pre hpre)
    rw [anyLoop_cons_true eng expression x ys ((yieldsTrue_iff eng expression x).mp hx)] at h
    refine ⟨h.1, ?_⟩
    simp only [evaluations, h.2, elementCalls]

/-- Witness of C5: with the expression `ok`, the second of three elements is
the first to satisfy it: two evaluations; when no element satisfies it, as
many evaluations as elements; and what follows the satisfying element, here
a number, is not inspected. -/
theorem Any_short_circuits_witness :
    sampleEngine.compile "ok" (anyFunctions sampleRegexp) = .ok okCompiled ∧
    evaluations (Any sampleRegexp sampleEngine [.str "ok", .slice
      ([[("ok", .bool false)], [("ok", .bool true)], [("ok", .bool true)]].map Value.map)]).trace
      = 2 ∧
    evaluations (Any sampleRegexp sampleEngine [.str "ok", .slice
      ([[("ok", .bool false)], [("ok", .bool false)]].map Value.map)]).trace = 2 ∧
    (Any sampleRegexp sampleEngine [.str "ok", .slice
      ([[("ok", .bool false)]].map Value.map ++ .map [("ok", .bool true)] :: [.int64 5])]).result
      = .done (.bool true, none) :=
  have h := Any_short_circuits sampleRegexp sampleEngine "ok" okCompiled rfl
  have h1 := h.1 [[("ok", .bool false)], [("ok", .bool true)], [("ok", .bool true)]]
    (by
      intro p hp
      simp only [List.mem_cons, List.mem_singleton, List.not_mem_nil, or_false] at hp
      rcases hp with rfl | rfl | rfl
      · exact ⟨.bool false, rfl⟩
      · exact ⟨.bool true, rfl⟩
      · exact ⟨.bool true, rfl⟩)
  have h2 := h.1 [[("ok", .bool false)], [("ok", .bool false)]]
    (by
      intro p hp
      simp only [List.mem_cons, List.mem_singleton, List.not_mem_nil, or_false] at hp
      rcases hp with rfl | rfl
      · exact ⟨.bool false, rfl⟩
      · exact ⟨.bool false, rfl⟩)
  have h3 := h.2 [[("ok", .bool false)]] [("ok", .bool true)] [.int64 5]
    (by
      intro p hp
      simp only [List.mem_singleton] at hp
      subst hp
      exact ⟨⟨.bool false, rfl⟩, rfl⟩)
    rfl
  ⟨rfl, h1.trans rfl, h2.trans rfl, h3.1⟩

/-- C6, as stated, fails: for a sub-expression that does not compile, here
the unbalanced `(`, `Any(e, [])` panics with the compile error instead of
returning `false`. -/
theorem Any_empty_not_always_false :
    ¬ ∀ (eng : Engine) (e : String),
      (Any sampleRegexp eng [.str e, .slice []]).result = .done (.bool false, none) := by
  intro h
  have h1 := h sampleEngine "("
  have h2 : (Any sampleRegexp sampleEngine [.str "(", .slice []]).result =
      .panic "Unbalanced parenthesis" := rfl
  rw [h2] at h1
  exact Outcome.noConfusion h1

/-- C6, amended: for every sub-expression `e` that compiles, `Any(e, [])`
returns `false` with a nil error, after the compilation and no evaluation. -/
theorem Any_empty (rx : Regexp) (eng : Engine) (e : String) (expression : eng.Expr)
    (hc : eng.compile e (anyFunctions rx) = .ok expression) :
    Any rx eng [.str e, .slice []] = ⟨[.compile e], .done (.bool false, none)⟩ := by
  rw [Any_compiled rx eng e expression _ _ hc]
  rfl

/-- Witness of the amended C6: the tag expression of `main` over no tags. -/
theorem Any_empty_witness :
    sampleEngine.compile jiraExpression (anyFunctions sampleRegexp) = .ok jiraCompiled ∧
    Any sampleRegexp sampleEngine [.str jiraExpression, .slice []] =
      ⟨[.compile jiraExpression], .done (.bool false, none)⟩ :=
  ⟨rfl, Any_empty sampleRegexp sampleEngine jiraExpression jiraCompiled rfl⟩

/-- C7, as stated, fails: a sequence that holds an element that is not a
map does not always fail the call.  With the expression `true` the first
element satisfies it, the loop stops there, and the number after it is never
inspected: `Any` returns `(true, nil)`. -/
theorem Any_non_map_after_match_not_reported :
    isMap (.int64 5) = false ∧
    sampleEngine.compile "true" (anyFunctions sampleRegexp) =
      .ok (SampleExpr.arg (.lit (.bool true))) ∧
    (Any sampleRegexp sampleEngine [.str "true", .slice [.map [], .int64 5]]).result =
      .done (.bool true, none) :=
  ⟨rfl, rfl, rfl⟩

/-- C7, amended: for a sub-expression that compiles, when the loop reaches
an element `item` that is not a map (on every element before it the
sub-expression evaluates without error to something other than `true`),
`Any` returns `false` with the error `item is not a map` followed by the
rendering of `item`, whatever follows it. -/
theorem Any_reports_reached_non_map (rx : Regexp) (eng : Engine) (e : String)
    (expression : eng.Expr) (pre : List Params) (item : Value) (post : List Value)
    (hc : eng.compile e (anyFunctions rx) = .ok expression)
    (hpre : ∀ p ∈ pre, Succeeds eng expression p ∧ yieldsTrue eng expression p = false)
    (hitem : isMap item = false) :
    (Any rx eng [.str e, .slice (pre.map Value.map ++ item :: post)]).result =
      .done (.bool false, some ("item is not a map " ++ fmtV item)) := by
  rw [Any_compiled rx eng e expression _ _ hc]
  have h := anyLoop_passed_over_append eng expression pre (item :: post)
    (passedOver_of_list eng expression pre hpre)
  rw [anyLoop_cons_not_map eng expression item post hitem] at h
  exact h.1

/-- Witness of the amended C7: a number after an element that does not
satisfy the expression `ok`. -/
theorem Any_reports_reached_non_map_witness :
    sampleEngine.compile "ok" (anyFunctions sampleRegexp) = .ok okCompiled ∧
    (∀ p ∈ [[("ok", Value.bool false)]],
      Succeeds sampleEngine okCompiled p ∧ yieldsTrue sampleEngine okCompiled p = false) ∧
    isMap (.int64 5) = false ∧
    (Any sampleRegexp sampleEngine [.str "ok", .slice
      ([[("ok", .bool false)]].map Value.map ++ .int64 5 :: [.map [("ok", .bool true)]])]).result
      = .done (.bool false, some "item is not a map 5") :=
  have hpre : ∀ p ∈ [[("ok", Value.bool false)]],
      Succeeds sampleEngine okCompiled p ∧ yieldsTrue sampleEngine okCompiled p = false := by
    intro p hp
    simp only [List.mem_singleton] at hp
    subst hp
    exact ⟨⟨.bool false, rfl⟩, rfl⟩
  ⟨rfl, hpre, rfl,
    Any_reports_reached_non_map sampleRegexp sampleEngine "ok" okCompiled
      [[("ok", .bool false)]] (.int64 5) [.map [("ok", .bool true)]] rfl hpre rfl⟩

/-- C8: the two positions of `Any` are fixed roles.  With fewer than two
arguments, or a first argument that is not a string, or a second argument
that is not a `[]interface{}`, `Any` returns `false` with a non-nil error and
an empty trace: nothing is compiled or evaluated.  In particular a call with
the two arguments exchanged is rejected, not reinterpreted. -/
theorem Any_fixed_roles (rx : Regexp) (eng : Engine) (args : List Value)
    (h : args.length < 2 ∨ (args.get? 0).map isString = some false ∨
      (args.get? 1).map isSlice = some false) :
    (∃ msg, Any rx eng args = ⟨[], .done (.bool false, some msg)⟩) ∧
    (∀ (e : String) (xs : List Value), Any rx eng [.slice xs, .str e] =
      ⟨[], .done (.bool false, some "arg 0 is not a string!")⟩) := by
  refine ⟨?_, fun e xs => rfl⟩
  rcases args with _ | ⟨a, _ | ⟨b, rest⟩⟩
  · exact ⟨_, rfl⟩
  · exact ⟨"Expected 2+ arguments, but got " ++ toString [a].length, by cases a <;> rfl⟩
  · have h2 : isString a = false ∨ isSlice b = false := by
      rcases h with h | h | h
      · simp only [List.length_cons] at h
        omega
      · left; simpa using h
      · right; simpa using h
    cases a with
    | str s =>
      cases b with
      | slice ys => simp [isString, isSlice] at h2
      | _ => exact ⟨_, rfl⟩
    | _ => exact ⟨_, rfl⟩

/-- Witness of C8: one argument; the two arguments exchanged; a number in
the place of the sequence. -/
theorem Any_fixed_roles_witness :
    ([Value.str "ok"].length < 2 ∨ ([Value.str "ok"].get? 0).map isString = some false ∨
      ([Value.str "ok"].get? 1).map isSlice = some false) ∧
    (∃ msg, Any sampleRegexp sampleEngine [.str "ok"] = ⟨[], .done (.bool false, some msg)⟩) ∧
    Any sampleRegexp sampleEngine [.str "ok"] =
      ⟨[], .done (.bool false, some "Expected 2+ arguments, but got 1")⟩ ∧
    Any sampleRegexp sampleEngine [.slice [.map [("ok", .bool true)]], .str "ok"] =
      ⟨[], .done (.bool false, some "arg 0 is not a string!")⟩ ∧
    Any sampleRegexp sampleEngine [.str "ok", .int64 5] =
      ⟨[], .done (.bool false, some "arg 1 is not a slice! ***[ok 5]*** string")⟩ :=
  have h := Any_fixed_roles sampleRegexp sampleEngine [.str "ok"] (Or.inl (by decide))
  ⟨Or.inl (by decide), h.1, rfl, h.2 "ok" [.map [("ok", .bool true)]], rfl⟩

theorem validateVariadicArgs_none (args : List Value)
    (h : validateVariadicArgs 2 args = none) :
    ∃ s p, args = [.str s, .str p] := by
  rcases args with _ | ⟨a, _ | ⟨b, _ | ⟨c, rest⟩⟩⟩
  · simp [validateVariadicArgs] at h
  · simp [validateVariadicArgs] at h
  · cases a <;> cases b <;> simp [validateVariadicArgs, checkStrings] at h
    exact ⟨_, _, rfl⟩
  · have hl : (((a :: b :: c :: rest).length : Nat) : Int) ≠ 2 := by
      simp only [List.length_cons]
      omega
    simp only [validateVariadicArgs, if_pos hl] at h
    exact Option.noConfusion h

/-- C9, as stated, fails: the built-ins do panic.  An invalid pattern makes
`RegexMatchFunc` panic; a sub-expression that does not compile, and one
whose evaluation fails on an element (here the parameter `ok` is missing),
make `Any` panic. -/
theorem builtins_do_panic :
    (RegexMatchFunc sampleRegexp [.str "a", .str "("]).result =
      .panic "error parsing regexp: missing closing ): \x60(\x60" ∧
    (Any sampleRegexp sampleEngine [.str "(", .slice [.map []]]).result =
      .panic "Unbalanced parenthesis" ∧
    (Any sampleRegexp sampleEngine [.str "ok", .slice [.map []]]).result =
      .panic "No parameter \x27ok\x27 found." :=
  ⟨rfl, rfl, rfl⟩

/-- C9, amended: `RegexMatchFunc` panics exactly when it is given two
strings of which the second is an invalid pattern, and then with the
matcher's error; in every other case it returns a pair.  `Any` panics with
the compile error when the sub-expression does not compile, and with the
evaluation error (or panic) of the first inspected element on which the
evaluation fails; the failure is not returned as an error value. -/
theorem builtins_panic_on_failure (rx : Regexp) (eng : Engine) :
    (∀ (args : List Value) (err : String),
      (RegexMatchFunc rx args).result = .panic err ↔
        ∃ s p, args = [.str s, .str p] ∧ rx.matchString p s = .error err) ∧
    (∀ (e err : String) (xs : List Value),
      eng.compile e (anyFunctions rx) = .error err →
        Any rx eng [.str e, .slice xs] = ⟨[.compile e], .panic err⟩) ∧
    (∀ (e : String) (expression : eng.Expr) (pre : List Params) (params : Params)
      (post : List Value) (err : String),
      eng.compile e (anyFunctions rx) = .ok expression →
      (∀ p ∈ pre, Succeeds eng expression p ∧ yieldsTrue eng expression p = false) →
      ((∃ v, eng.evaluate expression params = .done (v, some err)) ∨
        eng.evaluate expression params = .panic err) →
      (Any rx eng [.str e, .slice (pre.map Value.map ++ .map params :: post)]).result =
        .panic err) := by
  refine ⟨?_, ?_, ?_⟩
  · intro args err
    constructor
    · intro h
      cases hv : validateVariadicArgs 2 args with
      | some msg =>
        rw [RegexMatchFunc_of_invalid rx args msg hv] at h
        exact Outcome.noConfusion h
      | none =>
        obtain ⟨s, p, rfl⟩ := validateVariadicArgs_none args hv
        refine ⟨s, p, rfl, ?_⟩
        rw [RegexMatchFunc_two_strings] at h
        cases hm : rx.matchString p s with
        | error e2 =>
          rw [hm] at h
          simp only [Outcome.panic.injEq] at h
          rw [h]
        | ok b =>
          rw [hm] at h
          exact Outcome.noConfusion h
    · rintro ⟨s, p, rfl, hm⟩
      rw [RegexMatchFunc_two_strings, hm]
  · intro e err xs hc
    exact Any_not_compiled rx eng e err xs [] hc
  · intro e expression pre params post err hc hpre hfail
    rw [Any_compiled rx eng e expression _ _ hc]
    have h := anyLoop_passed_over_append eng expression pre (.map params :: post)
      (passedOver_of_list eng expression pre hpre)
    rcases hfail with ⟨v, hv⟩ | hp
    · rw [anyLoop_cons_error eng expression params post v err hv] at h
      exact h.1
    · rw [anyLoop_cons_panic eng expression params post err hp] at h
      exact h.1

/-- Witness of the amended C9: the invalid pattern `(`, the unbalanced
sub-expression `(`, and the expression `ok` on an element without that
parameter, after one that does not satisfy it. -/
theorem builtins_panic_on_failure_witness :
    (∃ s p, [Value.str "a", Value.str "("] = [.str s, .str p] ∧
      sampleRegexp.matchString p s =
        .error "error parsing regexp: missing closing ): \x60(\x60") ∧
    (RegexMatchFunc sampleRegexp [.str "a", .str "("]).result =
      .panic "error parsing regexp: missing closing ): \x60(\x60" ∧
    sampleEngine.compile "(" (anyFunctions sampleRegexp) = .error "Unbalanced parenthesis" ∧
    Any sampleRegexp sampleEngine [.str "(", .slice []] =
      ⟨[.compile "("], .panic "Unbalanced parenthesis"⟩ ∧
    sampleEngine.compile "ok" (anyFunctions sampleRegexp) = .ok okCompiled ∧
    (Any sampleRegexp sampleEngine [.str "ok", .slice
      ([[("ok", .bool false)]].map Value.map ++ .map [] :: [])]).result =
      .panic "No parameter \x27ok\x27 found." :=
  have h := builtins_panic_on_failure sampleRegexp sampleEngine
  have h1 : ∃ s p, [Value.str "a", Value.str "("] = [.str s, .str p] ∧
      sampleRegexp.matchString p s =
        .error "error parsing regexp: missing closing ): \x60(\x60" := ⟨"a", "(", rfl, rfl⟩
  ⟨h1, (h.1 _ _).mpr h1, rfl, h.2.1 "(" _ [] rfl, rfl,
    h.2.2 "ok" okCompiled [[("ok", .bool false)]] [] [] _ rfl
      (by
        intro p hp
        simp only [List.mem_singleton] at hp
        subst hp
        exact ⟨⟨.bool false, rfl⟩, rfl⟩)
      (Or.inl ⟨.nil, rfl⟩)⟩

/-- C10, as stated, fails: a result that is not a boolean does not make
`Any` fail.  The sub-expression `1` evaluates to a number on the one element
of the sequence, and `Any` returns `(false, nil)`: a boolean answer and no
error. -/
theorem Any_non_boolean_not_an_error :
    sampleEngine.compile "1" (anyFunctions sampleRegexp) = .ok oneCompiled ∧
    sampleEngine.evaluate oneCompiled [] = .done (.other "float64" "1", none) ∧
    Any sampleRegexp sampleEngine [.str "1", .slice [.map []]] =
      ⟨[.compile "1", .print "sending params in any map[]\n", .evaluate []],
        .done (.bool false, none)⟩ :=
  ⟨rfl, rfl, rfl⟩

/-- C10, amended: a result that is not a boolean is not an error for `Any`.
For a sub-expression that compiles, when the loop reaches an element on
which it evaluates without error to a value that is not a boolean, the
element counts as not satisfying and the call ends as the call on the
elements after it does; with nothing after it, `Any` returns `(false, nil)`. -/
theorem Any_skips_non_boolean (rx : Regexp) (eng : Engine) (e : String)
    (expression : eng.Expr) (pre : List Params) (params : Params) (v : Value)
    (post : List Value)
    (hc : eng.compile e (anyFunctions rx) = .ok expression)
    (hpre : ∀ p ∈ pre, Succeeds eng expression p ∧ yieldsTrue eng expression p = false)
    (hv : eng.evaluate expression params = .done (v, none))
    (hnb : ∀ b, v ≠ .bool b) :
    (Any rx eng [.str e, .slice (pre.map Value.map ++ .map params :: post)]).result =
        (Any rx eng [.str e, .slice post]).result ∧
      (Any rx eng [.str e, .slice (pre.map Value.map ++ [.map params])]).result =
        .done (.bool false, none) := by
  have hp : PassedOver eng expression params := ⟨v, hv, hnb true⟩
  have key : ∀ rest : List Value,
      (anyLoop eng expression (pre.map Value.map ++ .map params :: rest)).result =
        (anyLoop eng expression rest).result := by
    intro rest
    have h := anyLoop_passed_over_append eng expression pre (.map params :: rest)
      (passedOver_of_list eng expression pre hpre)
    rw [anyLoop_cons_pass eng expression params rest hp] at h
    exact h.1
  constructor
  · rw [Any_compiled rx eng e expression _ _ hc, Any_compiled rx eng e expression _ _ hc]
    exact key post
  · rw [Any_compiled rx eng e expression _ _ hc]
    exact (key []).trans rfl

/-- Witness of the amended C10: the sub-expression `1` on two elements. -/
theorem Any_skips_non_boolean_witness :
    sampleEngine.compile "1" (anyFunctions sampleRegexp) = .ok oneCompiled ∧
    sampleEngine.evaluate oneCompiled [("ok", .bool true)] =
      .done (.other "float64" "1", none) ∧
    (∀ b, Value.other "float64" "1" ≠ .bool b) ∧
    (Any sampleRegexp sampleEngine [.str "1", .slice
      ([[]].map Value.map ++ [.map [("ok", .bool true)]])]).result =
      .done (.bool false, none) :=
  have hnb : ∀ b, Value.other "float64" "1" ≠ .bool b := fun _ h => Value.noConfusion h
  ⟨rfl, rfl, hnb,
    (Any_skips_non_boolean sampleRegexp sampleEngine "1" oneCompiled [[]]
      [("ok", .bool true)] (.other "float64" "1") [] rfl
      (by
        intro p hp
        simp only [List.mem_singleton] at hp
        subst hp
        exact ⟨⟨.other "float64" "1", rfl⟩, rfl⟩)
      rfl hnb).2⟩

end GovaluateExperiment
